import Mathlib

/-!
Shallow embedding of the track-o-matic stepper-motor core.

The repository drives split-flap displays with stepper motors:

* `src/lib/Stepper.js` — the motor driver: `stepMod` (modular position
  arithmetic), `stepMotor` (writes one row of `STEP_PINS` to the 4 GPIO
  pins), and `step(steps, duration)` (a promise-chained, timed command
  loop).
* `src/lib/MockStepper.js` — a simulated motor that infers rotation purely
  from the pin writes it observes.
* `src/lib/SplitFlap.js` — the flap-position mapper built on the driver.

JS numbers are embedded as exact rationals (`ℚ`) where fractional values
can occur (durations, mapper arithmetic) and as `Int`/`Nat` where the
source only ever holds integers (step positions, counters).  All values
appearing in the concrete scenarios below are exactly representable in
IEEE double precision, so the rational embedding agrees with the source
on them.  `a % b` on nonnegative JS integers agrees with `Int.emod`.
-/

namespace Track

/-- Pin values, indexed by step: `STEP_PINS`, src/lib/Stepper.js lines
112-117 (the same table appears in src/lib/MockStepper.js lines 11-16). -/
def STEP_PINS : List (List Nat) :=
  [[1, 0, 1, 0], [0, 1, 1, 0], [0, 1, 0, 1], [1, 0, 0, 1]]

/-- The row of `STEP_PINS` selected for step index `i`:
`STEP_PINS[i % NUM_PINS]` with `NUM_PINS = 4` (src/lib/Stepper.js line
215, src/lib/MockStepper.js lines 71 and 82).  All indices that occur at
runtime are nonnegative, where JS `%` agrees with `Int.emod`. -/
def stepPinsRow (i : Int) : List Nat :=
  STEP_PINS.getD (i % 4).toNat []

/-- `stepMod(x, direction, mod)`, src/lib/Stepper.js lines 83-94:

    if (direction > 0) { x++; return x > mod ? 0 : x; }
    if (direction < 0) { return (x === 0 ? mod : x) - 1; }
    return x;
-/
def stepMod (x direction mod : Int) : Int :=
  if direction > 0 then
    let x1 := x + 1
    if x1 > mod then 0 else x1
  else if direction < 0 then
    (if x = 0 then mod else x) - 1
  else
    x

/-- Result of running one `step` command body in isolation:
the final `_currentStep`, the rows written by `stepMotor` (one entry per
transition; each entry is the 4-pin row written, in fixed pin order),
and the positions carried by the emitted `step` events. -/
structure CmdRun where
  pos : Int
  writes : List (List Nat)
  events : List Int
  deriving DecidableEq

/-- The command loop of `Stepper.step` (src/lib/Stepper.js lines 246-269)
run for `n` remaining iterations.  Each iteration performs
`numSteps++; this._currentStep = stepMod(...); this.stepMotor();` and
then a throttled `step` event: the wall-clock condition
`Date.now() - tStep > MS_PER_STEP_EVT` is abstracted as the oracle
`thr k` for the `k`-th transition.  After the loop one final `step`
event is always emitted (line 269). -/
def runCmdLoop (T direction : Int) (thr : Nat → Bool) : Nat → Nat → CmdRun → CmdRun
  | 0, _, r => { r with events := r.events ++ [r.pos] }
  | n + 1, k, r =>
    let p := stepMod r.pos direction T
    runCmdLoop T direction thr n (k + 1)
      { pos := p
        writes := r.writes ++ [stepPinsRow p]
        events := r.events ++ (if thr k then [p] else []) }

/-- One `Stepper.step(steps, duration)` command executed in isolation on a
motor with `totalSteps = T` and current position `pos`
(src/lib/Stepper.js lines 232-273): `direction = Math.sign(steps)`,
`total = Math.abs(steps)`, then the loop above.  (The `duration` only
determines the inter-step sleep, which has no effect on the position,
writes or event contents; the timed behaviour is modelled separately by
`pacingLoop` and by the event-loop machine below.) -/
def stepCommand (T : Int) (steps : Int) (thr : Nat → Bool) (pos : Int) : CmdRun :=
  runCmdLoop T (Int.sign steps) thr steps.natAbs 0 ⟨pos, [], []⟩

/-- `tick` of the simulated motor, src/lib/MockStepper.js lines 61-86:
given the settled 4-pin state after a coalesced batch of writes, infer
forward motion (wrapping `totalSteps → 0`), else backward motion
(wrapping `-1 → totalSteps - 1`), else no motion.  The writes of one
`stepMotor` call arrive synchronously and the deferred (debounced)
`tick` then sees the complete written row, so one `tick` per transition
with that transition's row is the settled behaviour. -/
def mockTick (T : Int) (cur : Int) (state : List Nat) : Int :=
  if state.get? 0 = state.get? 1 ∨ state.get? 2 = state.get? 3 then cur
  else
    let forward := if cur + 1 ≥ T then 0 else cur + 1
    if state = stepPinsRow forward then forward
    else
      let backward := if cur - 1 < 0 then T - 1 else cur - 1
      if state = stepPinsRow backward then backward else cur

/-- The simulated motor's inferred position after observing a list of
settled write batches, starting from `_currentStep = 0`
(src/lib/MockStepper.js line 55). -/
def mockInferred (T : Int) (rows : List (List Nat)) : Int :=
  rows.foldl (mockTick T) 0

/-- `NS_PER_S`, src/lib/Stepper.js line 25. -/
def NS_PER_S : ℚ := 1000000000

/-- The interval between steps in nanoseconds, src/lib/Stepper.js line
240: `dt = duration * NS_PER_S / total`. -/
def stepInterval (duration : ℚ) (total : Nat) : ℚ :=
  duration * NS_PER_S / (total : ℚ)

/-- Result of running one command's loop with its timing: final position,
the durations handed to `setTimeoutNS` (one per executed iteration, in
order), and the time at which the command completes (nanoseconds). -/
structure TimedRun where
  pos : Int
  time : ℚ
  sleepRequests : List ℚ
  deriving DecidableEq

/-- The pacing behaviour of the loop in `Stepper.step`
(src/lib/Stepper.js lines 246-266): each iteration performs its
transition and then awaits `setTimeoutNS(dt)` — the constant nominal
interval; no elapsed time since the previous step is measured and no
remaining-time correction is applied (`tStep`/`Date.now()` on lines
247 and 261 only throttle the `step` events).  `late k` is an
environment oracle giving the extra delay the scheduler adds to the
`k`-th suspension (Node timers may fire late, never early), so the
`k`-th suspension actually takes `dt + late k` nanoseconds.  `n` is the
number of iterations left, `k` the index of the next suspension,
`pos`/`t` the current position and clock. -/
def pacingLoop (T direction : Int) (dt : ℚ) (late : Nat → ℚ) :
    Nat → Nat → Int → ℚ → TimedRun
  | 0, _, pos, t => ⟨pos, t, []⟩
  | n + 1, k, pos, t =>
    let pos1 := stepMod pos direction T
    let r := pacingLoop T direction dt late n (k + 1) pos1 (t + dt + late k)
    { r with sleepRequests := dt :: r.sleepRequests }

/-- `Stepper.step(steps, duration)` with its timing, starting at clock 0:
`direction = Math.sign(steps)`, `total = Math.abs(steps)`,
`dt = duration * NS_PER_S / total`, then the pacing loop. -/
def timedStep (T : Int) (steps : Int) (duration : ℚ) (late : Nat → ℚ) (pos : Int) :
    TimedRun :=
  pacingLoop T (Int.sign steps) (stepInterval duration steps.natAbs) late
    steps.natAbs 0 pos 0

/-!
## Event-loop model of `Stepper.step` command queueing

`Stepper.step` (src/lib/Stepper.js lines 232-273) starts an async
function `queueCommand` which

1. runs synchronously up to `await this.latestCommand`, awaiting the
   promise stored in `latestCommand` *at submission time*;
2. on resumption sets `this.latestCommand = command` (line 244 — only
   after the await) and runs the stepping loop, suspending on
   `setTimeoutNS(dt)` after every iteration;
3. settles its own promise when the loop finishes (fulfilled) or when
   the body throws (rejected) — in particular `await this.latestCommand`
   rethrows if the awaited command rejected.

The machine below models Node's single-threaded event loop restricted
to what this code uses: a FIFO microtask queue for resumptions of
settled awaits, timers firing at their expiry in registration order,
and top-level submissions happening synchronously at given times.
Promise ids: `0` is the initially resolved `Promise.resolve()`
(line 184); command `i`'s promise has id `i`.
-/

/-- A call `step(steps, duration)`, plus an environment oracle `failAt`:
`failAt = some k` means the GPIO write of the `k`-th transition
(1-based) raises a hardware I/O error inside `stepMotor`. -/
structure Cmd where
  steps : Int
  duration : ℚ
  failAt : Option Nat
  deriving DecidableEq

/-- Where a queued command currently is: awaiting the promise captured at
submission, suspended in `setTimeoutNS` between iterations (`numSteps`
transitions already performed), or settled (`done true` = fulfilled,
`done false` = rejected). -/
inductive MPhase where
  | waiting (promise : Nat)
  | sleeping (numSteps : Nat)
  | done (ok : Bool)
  deriving DecidableEq

/-- Runtime record of one submitted command. -/
structure MTask where
  id : Nat
  direction : Int
  total : Nat
  dt : ℚ
  failAt : Option Nat
  phase : MPhase
  deriving DecidableEq

/-- The whole event-loop state for one `Stepper`: clock (ns), the shared
`_currentStep`, the promise id held in `latestCommand`, settled
promises, tasks in submission order, pending microtask resumptions
`(task, ok)`, pending timers `(wake, task)` in registration order,
future submissions `(time, cmd)` in time order, and the trace of
completed `stepMotor` calls `(task, position written)`. -/
structure MState where
  time : ℚ
  pos : Int
  totalSteps : Int
  latest : Nat
  promises : List (Nat × Bool)
  tasks : List MTask
  micro : List (Nat × Bool)
  timers : List (ℚ × Nat)
  nextSub : List (ℚ × Cmd)
  trace : List (Nat × Int)
  deriving DecidableEq

/-- Look up whether a promise has settled, and how. -/
def findProm : List (Nat × Bool) → Nat → Option Bool
  | [], _ => none
  | q :: ps, p => if q.1 = p then some q.2 else findProm ps p

/-- Find the task with the given id. -/
def findTask : List MTask → Nat → Option MTask
  | [], _ => none
  | t :: ts, id => if t.id = id then some t else findTask ts id

/-- Replace the phase of task `id`. -/
def setTaskPhase : List MTask → Nat → MPhase → List MTask
  | [], _, _ => []
  | t :: ts, id, ph =>
    (if t.id = id then { t with phase := ph } else t) :: setTaskPhase ts id ph

/-- The microtask resumptions for the tasks awaiting promise `id`, in
submission order (the order the awaits were registered). -/
def waiterResumptions : List MTask → Nat → Bool → List (Nat × Bool)
  | [], _, _ => []
  | t :: ts, id, ok =>
    match t.phase with
    | .waiting p =>
      if p = id then (t.id, ok) :: waiterResumptions ts id ok
      else waiterResumptions ts id ok
    | _ => waiterResumptions ts id ok

/-- Settle task `id`'s promise: record it, mark the task done, and
enqueue a microtask resumption for every task awaiting this promise. -/
def settleTask (s : MState) (id : Nat) (ok : Bool) : MState :=
  { s with
    promises := s.promises ++ [(id, ok)]
    micro := s.micro ++ waiterResumptions s.tasks id ok
    tasks := setTaskPhase s.tasks id (.done ok) }

/-- Run task `id`'s loop from its check with `k` transitions done
(src/lib/Stepper.js lines 246-269): if `numSteps < total`, perform the
next transition — `numSteps++`, `_currentStep = stepMod(...)` (the
position updates *before* the write), then `stepMotor()`, which either
throws (rejecting the command; the position is not rolled back) or
records its pin writes and suspends on `setTimeoutNS(dt)`; otherwise
the loop is over and the command's promise fulfills. -/
def loopCheck (s : MState) (id : Nat) (k : Nat) : MState :=
  match findTask s.tasks id with
  | none => s
  | some t =>
    if k < t.total then
      let pos1 := stepMod s.pos t.direction s.totalSteps
      let s1 := { s with pos := pos1 }
      let onWriteOk :=
        { s1 with
          trace := s1.trace ++ [(id, pos1)]
          timers := s1.timers ++ [(s1.time + t.dt, id)]
          tasks := setTaskPhase s1.tasks id (.sleeping (k + 1)) }
      match t.failAt with
      | some j => if j = k + 1 then settleTask s1 id false else onWriteOk
      | none => onWriteOk
    else
      settleTask s id true

/-- Resume task `id` from `await this.latestCommand`: a rejected awaited
promise rethrows, rejecting this command before it does anything; a
fulfilled one lets the command assign `this.latestCommand = command`
(src/lib/Stepper.js line 244) and enter its loop. -/
def resumeTask (s : MState) (id : Nat) (ok : Bool) : MState :=
  if ok then loopCheck { s with latest := id } id 0
  else settleTask s id false

/-- A timer for task `id` fired: continue its loop. -/
def fireTimer (s : MState) (id : Nat) : MState :=
  match findTask s.tasks id with
  | some t =>
    match t.phase with
    | .sleeping k => loopCheck s id k
    | _ => s
  | none => s

/-- Submit `step(steps, duration)` (src/lib/Stepper.js lines 232-244):
compute `direction`, `total` and `dt`, and run `queueCommand` up to its
first await, capturing the promise currently in `latestCommand`.  If
that promise has already settled, the continuation is scheduled as a
microtask right away; otherwise it runs when the promise settles. -/
def submitCmd (s : MState) (c : Cmd) : MState :=
  let id := s.tasks.length + 1
  let t : MTask :=
    { id := id
      direction := Int.sign c.steps
      total := c.steps.natAbs
      dt := stepInterval c.duration c.steps.natAbs
      failAt := c.failAt
      phase := .waiting s.latest }
  let s1 := { s with tasks := s.tasks ++ [t] }
  match findProm s1.promises s.latest with
  | some ok => { s1 with micro := s1.micro ++ [(id, ok)] }
  | none => s1

/-- First timer with the minimal wake time (ties go to the earlier
registration, as in Node). -/
def earliestTimer (ts : List (ℚ × Nat)) : Option (ℚ × Nat) :=
  ts.foldl
    (fun acc t =>
      match acc with
      | none => some t
      | some a => if t.1 < a.1 then some t else some a)
    none

/-- Remove the first occurrence of a timer entry. -/
def eraseTimer : List (ℚ × Nat) → (ℚ × Nat) → List (ℚ × Nat)
  | [], _ => []
  | t :: ts, e => if t = e then ts else t :: eraseTimer ts e

/-- One event-loop step: synchronous submissions due now run first, then
pending microtasks, then the earliest timer (or the next submission if
it is due sooner); `none` when nothing is left to run. -/
def machineStep (s : MState) : Option MState :=
  match s.nextSub with
  | (tSub, c) :: rest =>
    if tSub ≤ s.time then some (submitCmd { s with nextSub := rest } c)
    else
      match s.micro with
      | m :: ms => some (resumeTask { s with micro := ms } m.1 m.2)
      | [] =>
        match earliestTimer s.timers with
        | some (w, id) =>
          if tSub ≤ w then some (submitCmd { s with nextSub := rest, time := tSub } c)
          else some (fireTimer { s with timers := eraseTimer s.timers (w, id), time := w } id)
        | none => some (submitCmd { s with nextSub := rest, time := tSub } c)
  | [] =>
    match s.micro with
    | m :: ms => some (resumeTask { s with micro := ms } m.1 m.2)
    | [] =>
      match earliestTimer s.timers with
      | some (w, id) =>
        some (fireTimer { s with timers := eraseTimer s.timers (w, id), time := w } id)
      | none => none

/-- Run the event loop for at most `fuel` steps (it halts by itself once
nothing is pending). -/
def machineRun : Nat → MState → MState
  | 0, s => s
  | n + 1, s =>
    match machineStep s with
    | none => s
    | some s1 => machineRun n s1

/-- A fresh `Stepper(totalSteps, pins)` (position 0, `latestCommand`
holding the already-resolved promise 0) together with the `step` calls
to be made against it. -/
def mkMachine (T : Int) (subs : List (ℚ × Cmd)) : MState :=
  { time := 0, pos := 0, totalSteps := T, latest := 0,
    promises := [(0, true)], tasks := [], micro := [], timers := [],
    nextSub := subs, trace := [] }

/-- The settled outcome of command `id`: `some true` if its awaitable
fulfilled, `some false` if it rejected, `none` if still pending. -/
def taskOutcome (s : MState) (id : Nat) : Option Bool :=
  match findTask s.tasks id with
  | some t =>
    match t.phase with
    | .done ok => some ok
    | _ => none
  | none => none

/-!
## The flap-position mapper, src/lib/SplitFlap.js

The mapper works in exact JS-number arithmetic, embedded as `ℚ`: the
computed step counts and durations need not be integers (no rounding
appears in the source).  The stepper position as seen through the
mapper is therefore also carried as `ℚ`; `stepModQ`/`runStepQ` mirror
`stepMod` and the `step` loop on that representation (the loop runs
`ceil(total)` iterations since `numSteps < total` compares an integer
counter against the possibly fractional `total = Math.abs(steps)`).
-/

/-- `Math.sign` on a JS number. -/
def signQ (x : ℚ) : ℚ :=
  if 0 < x then 1 else if x < 0 then -1 else 0

/-- `stepMod` (src/lib/Stepper.js lines 83-94) on JS-number positions. -/
def stepModQ (x direction mod : ℚ) : ℚ :=
  if direction > 0 then
    let x1 := x + 1
    if x1 > mod then 0 else x1
  else if direction < 0 then
    (if x = 0 then mod else x) - 1
  else
    x

/-- The position after `Stepper.step(steps, _)` completes on a motor with
`totalSteps = T` at position `pos`: `Math.abs(steps)` rounded up
iterations of the loop (src/lib/Stepper.js lines 246-266), each
applying `stepMod` in direction `Math.sign(steps)`. -/
def runStepQ (T steps pos : ℚ) : ℚ :=
  Nat.iterate (fun p => stepModQ p (signQ steps) T) ⌈|steps|⌉.toNat pos

/-- The error thrown by `SplitFlap.setFlap` for a label absent from
`flapIndices` (src/lib/SplitFlap.js lines 111-113). -/
inductive SFError where
  | unknownFlap (flap : String)
  deriving DecidableEq

/-- The mapper state (src/lib/SplitFlap.js constructor): the flap labels
in display order, `totalFlaps`, `period`, and the owned stepper's
`totalSteps` and `_currentStep`, plus the private `_flapIndex`. -/
structure SplitFlap where
  flaps : List String
  totalFlaps : ℚ
  period : ℚ
  stepperTotalSteps : ℚ
  stepperPos : ℚ
  flapIndex : Nat
  deriving DecidableEq

/-- The `flapIndices` table built by the constructor
(src/lib/SplitFlap.js lines 30-34):

    flaps.forEach((flap, i) => { flapIndices[flap] = i; });

Later assignments overwrite earlier ones, so a lookup returns the index
of the *last* occurrence of the label; `i` is the index of the head of
the remaining list. -/
def lookupFlapAux (flap : String) : List String → Nat → Option Nat
  | [], _ => none
  | f :: rest, i =>
    match lookupFlapAux flap rest (i + 1) with
    | some j => some j
    | none => if f = flap then some i else none

/-- `flap in flapIndices` / `flapIndices[flap]` on the constructed table
(the `in` membership check of src/lib/SplitFlap.js line 111 succeeds
exactly when this returns `some`). -/
def lookupFlap (flaps : List String) (flap : String) : Option Nat :=
  lookupFlapAux flap flaps 0

/-- The `currentFlap` getter (src/lib/SplitFlap.js lines 96-98):
`this.flaps[this._flapIndex]`. -/
def currentFlap (sf : SplitFlap) : Option String :=
  sf.flaps.get? sf.flapIndex

/-- The `SplitFlap` constructor (src/lib/SplitFlap.js lines 25-88):
rejects `period <= 0`, otherwise accepts any label list (duplicates
included) and starts at `_flapIndex = 0`. -/
def mkSplitFlap (stepperTotalSteps stepperPos : ℚ) (flaps : List String)
    (totalFlaps period : ℚ) : Option SplitFlap :=
  if period ≤ 0 then none
  else some ⟨flaps, totalFlaps, period, stepperTotalSteps, stepperPos, 0⟩

/-- Modelled from the spec: `Stepper.calibrate` is called by
`SplitFlap.setFlap` (src/lib/SplitFlap.js line 118) but is not defined
in any source file of the repository.  Per the spec (§4.3 and the
glossary entry "Calibration"), calibration declares the motor's current
physical position to already correspond to the given target step
without moving the motor: it sets the driver's position bookkeeping to
the target and performs no pin writes. -/
def calibrate (sf : SplitFlap) (target : ℚ) : SplitFlap :=
  { sf with stepperPos := target }

/-- The forward-only step delta of `SplitFlap.setFlap`
(src/lib/SplitFlap.js lines 125-127):

    const steps = end < start ? (totalSteps - start + end) : (end - start);
-/
def forwardSteps (totalSteps start target : ℚ) : ℚ :=
  if target < start then totalSteps - start + target else target - start

/-- Result of one `setFlap` call: the mapper/stepper state afterwards,
the `stepper.step(steps, duration)` calls issued (in order), and the
error thrown, if any.  A thrown error leaves the state untouched. -/
structure SetFlapResult where
  state : SplitFlap
  cmds : List (ℚ × ℚ)
  err : Option SFError
  deriving DecidableEq

/-- `SplitFlap.setFlap(flap, noStep)`, src/lib/SplitFlap.js lines
108-135: unknown labels throw before any state change; `noStep` = true
calibrates the stepper to the target step and updates `_flapIndex`
immediately without any motor command; otherwise the forward-only
delta is computed from the stepper's *actual* current step,
`stepper.step(steps, duration)` is awaited, and `_flapIndex` is
updated after it completes. -/
def setFlap (sf : SplitFlap) (flap : String) (noStep : Bool) : SetFlapResult :=
  match lookupFlap sf.flaps flap with
  | none => ⟨sf, [], some (.unknownFlap flap)⟩
  | some endIndex =>
    let target := (endIndex : ℚ) / sf.totalFlaps * sf.stepperTotalSteps
    if noStep then
      ⟨{ calibrate sf target with flapIndex := endIndex }, [], none⟩
    else
      let start := sf.stepperPos
      let steps := forwardSteps sf.stepperTotalSteps start target
      let duration := steps / sf.stepperTotalSteps * sf.period
      ⟨{ sf with
          stepperPos := runStepQ sf.stepperTotalSteps steps start
          flapIndex := endIndex },
        [(steps, duration)], none⟩

/-- Two identical `step(2, 2)` calls submitted back-to-back (both in the
same synchronous block, before either has finished) on a
`Stepper(8, pins)`. -/
def c3run : MState :=
  machineRun 20 (mkMachine 8 [(0, ⟨2, 2, none⟩), (0, ⟨2, 2, none⟩)])

/-- A `step(2, 2)` call whose first transition's pin write raises a
hardware I/O error, followed — well after the first command has
rejected — by a `step(s2, d2)` call on the same `Stepper(T, pins)`. -/
def c6run (T s2 : Int) (d2 : ℚ) : MState :=
  machineRun 10 (mkMachine T [(0, ⟨2, 2, some 1⟩), (5000000000, ⟨s2, d2, none⟩)])

/-- The accumulated scheduler lateness of suspensions `k, k+1, ...,
k+n-1`. -/
def lateSum (late : Nat → ℚ) (k : Nat) : Nat → ℚ
  | 0 => 0
  | n + 1 => late k + lateSum late (k + 1) n

/-- A label that does not occur in the list is not in the table. -/
theorem lookupFlapAux_eq_none (flap : String) :
    ∀ (l : List String) (i : Nat), flap ∉ l → lookupFlapAux flap l i = none := by
  intro l
  induction l with
  | nil => intro i _; rfl
  | cons f rest ih =>
    intro i hmem
    have hne : f ≠ flap := fun h => hmem (h ▸ List.mem_cons_self f rest)
    have hrest : flap ∉ rest := fun h => hmem (List.mem_cons_of_mem f h)
    simp only [lookupFlapAux, ih (i + 1) hrest, if_neg hne]

/-- A label maps to the index of its last occurrence: later assignments
in the constructor's `forEach` overwrite earlier ones. -/
theorem lookupFlapAux_last (flap : String) (post : List String) (hpost : flap ∉ post) :
    ∀ (xs : List String) (i : Nat),
      lookupFlapAux flap (xs ++ flap :: post) i = some (i + xs.length) := by
  intro xs
  induction xs with
  | nil =>
    intro i
    simp [List.nil_append, lookupFlapAux, lookupFlapAux_eq_none flap post (i + 1) hpost]
  | cons x xs ih =>
    intro i
    simp only [List.cons_append, lookupFlapAux, List.append_eq, ih (i + 1),
      List.length_cons, Option.some.injEq]
    omega

/-- A successful table lookup returns an in-range index whose list entry
is the looked-up label. -/
theorem lookupFlapAux_get (flap : String) :
    ∀ (l : List String) (i j : Nat), lookupFlapAux flap l i = some j →
      i ≤ j ∧ l.get? (j - i) = some flap := by
  intro l
  induction l with
  | nil => intro i j h; simp [lookupFlapAux] at h
  | cons f rest ih =>
    intro i j h
    simp only [lookupFlapAux] at h
    split at h
    next j1 hr =>
      simp only [Option.some.injEq] at h
      subst h
      obtain ⟨hle, hget⟩ := ih (i + 1) j1 hr
      refine ⟨by omega, ?_⟩
      have heq : j1 - i = (j1 - (i + 1)) + 1 := by omega
      rw [heq, List.get?_cons_succ, hget]
    next hr =>
      by_cases hf : f = flap
      · rw [if_pos hf] at h
        simp only [Option.some.injEq] at h
        subst h
        simp [hf]
      · rw [if_neg hf] at h
        exact absurd h (by simp)

/-- Iterating `stepMod` forward while the wrap threshold is not reached
adds one per iteration. -/
theorem stepModQ_iterate_forward (T : ℚ) (n : Nat) :
    ∀ p : ℚ, p + n ≤ T → Nat.iterate (fun q => stepModQ q 1 T) n p = p + n := by
  induction n with
  | zero => intro p _; simp
  | succ n ih =>
    intro p hp
    have h1 : p + 1 ≤ T := by
      have : (0 : ℚ) ≤ n := by positivity
      push_cast at hp
      linarith
    have hstep : stepModQ p 1 T = p + 1 := by
      simp only [stepModQ]
      norm_num
      intro hgt
      linarith
    rw [Function.iterate_succ_apply, hstep, ih (p + 1) (by push_cast at hp ⊢; linarith)]
    push_cast
    ring

/-- `runStepQ` on a whole nonnegative number of steps that stays below
the wrap threshold. -/
theorem runStepQ_nat (T : ℚ) (n : Nat) (p : ℚ) (h1 : 0 < n) (h2 : p + n ≤ T) :
    runStepQ T n p = p + n := by
  have hsign : signQ n = 1 := by
    simp only [signQ]
    rw [if_pos (by exact_mod_cast h1)]
  have hceil : (⌈|(n : ℚ)|⌉).toNat = n := by
    rw [abs_of_nonneg (by positivity), Int.ceil_natCast]
    exact Int.toNat_natCast n
  rw [runStepQ, hsign, hceil]
  exact stepModQ_iterate_forward T n p h2

/-- The pacing loop requests the constant nominal interval `dt` for every
suspension, and finishes at `t + n·dt` plus the accumulated scheduler
lateness — no suspension is shortened to compensate for a late
predecessor. -/
theorem pacingLoop_spec (T direction : Int) (dt : ℚ) (late : Nat → ℚ) (n : Nat) :
    ∀ (k : Nat) (pos : Int) (t : ℚ),
      (pacingLoop T direction dt late n k pos t).sleepRequests = List.replicate n dt ∧
      (pacingLoop T direction dt late n k pos t).time
        = t + n * dt + lateSum late k n := by
  induction n with
  | zero => intro k pos t; simp [pacingLoop, lateSum]
  | succ n ih =>
    intro k pos t
    obtain ⟨ihreq, ihtime⟩ :=
      ih (k + 1) (stepMod pos direction T) (t + dt + late k)
    constructor
    · simp only [pacingLoop, ihreq, List.replicate_succ]
    · simp only [pacingLoop, ihtime, lateSum]
      push_cast
      ring

/-- `lateSum` is the usual finite sum of the lateness oracle. -/
theorem lateSum_eq_range (late : Nat → ℚ) :
    ∀ (n k : Nat), lateSum late k n = Finset.sum (Finset.range n) (fun i => late (k + i)) := by
  intro n
  induction n with
  | zero => intro k; simp [lateSum]
  | succ n ih =>
    intro k
    rw [Finset.sum_range_succ']
    simp only [Nat.add_zero]
    rw [lateSum, ih (k + 1)]
    have harg : ∀ i, k + 1 + i = k + (i + 1) := fun i => by omega
    rw [Finset.sum_congr rfl fun i _ => congrArg late (harg i)]
    ring

/-- Claim C1: for `total_steps > 0` and `step(s, d)` with `d > 0`, the
driver's position after the command should equal
`(previous_position + s) mod total_steps` and stay in
`[0, total_steps)`.  The code violates this: `stepMod` only wraps the
incremented position when it *exceeds* `totalSteps` (src/lib/Stepper.js
line 86, `x > mod` instead of `x >= mod`), so a `step(2, d)` command on
a fresh `Stepper(2, pins)` leaves `currentStep = 2 = totalSteps`, not
`(0 + 2) mod 2 = 0`, contradicting the source's own documented
invariant `0 <= _currentStep < totalSteps` (src/lib/Stepper.js lines
186-188 and 198-200). -/
theorem c1_position_exceeds_total_steps :
    (stepCommand 2 2 (fun _ => false) 0).pos = 2 ∧
    (stepCommand 2 2 (fun _ => false) 0).pos ≠ ((0 + 2) % 2 : Int) ∧
    ¬ (stepCommand 2 2 (fun _ => false) 0).pos < 2 := by
  decide

/-- Claim C4: the Simulated Motor's independently inferred position
should equal the driver's `currentStep` after each command settles.
The code violates this at the forward wrap: after `step(4, d)` on a
4-step motor the driver holds `currentStep = 4` (the `stepMod` wrap
bug of C1) while the `MockStepper`, which wraps correctly
(src/lib/MockStepper.js lines 66-69), infers position `0` from the
same pin writes. -/
theorem c4_driver_mock_divergence :
    (stepCommand 4 4 (fun _ => false) 0).pos = 4 ∧
    mockInferred 4 (stepCommand 4 4 (fun _ => false) 0).writes = 0 ∧
    (4 : Int) ≠ 0 := by
  decide

/-- Claim C7 counterexample: the claim says a `step(0, d)` call emits no
position-change notification, but the loop's unconditional final
`this.emit('step', this._currentStep)` (src/lib/Stepper.js line 269)
runs even when no transition was performed: `step(0, d)` on a motor at
position 5 emits exactly one `step` event carrying 5. -/
theorem c7_counterexample :
    (stepCommand 300 0 (fun _ => false) 5).events = [5] ∧
    (stepCommand 300 0 (fun _ => false) 5).events ≠ [] := by
  decide

/-- Claim C7 (amended): a `step(0, d)` call resolves immediately without
error, performs no pin write and no position change, and emits exactly
one final `step` notification carrying the unchanged position. -/
theorem c7_zero_steps_final_event (T : Int) (thr : Nat → Bool) (pos : Int) :
    stepCommand T 0 thr pos = ⟨pos, [], [pos]⟩ :=
  rfl

/-- Claim C9 counterexample: the claim says the driver measures the
elapsed time since the previous step and suspends only for the
remaining fraction of the ideal interval, finishing within ≈±5% of
`d`.  In the code the loop awaits `setTimeoutNS(dt)` with the constant
nominal `dt` after every transition (src/lib/Stepper.js line 249) and
never measures the inter-step elapsed time: with `step(2, 2)`
(`dt = 10⁹ ns`) and the scheduler delivering the first suspension
`5·10⁸ ns` late, the second suspension is still requested as the full
`10⁹ ns` — not the remaining `5·10⁸ ns` — and the command completes at
`2.5·10⁹ ns`, 25% over the requested 2 s. -/
theorem c9_counterexample :
    (timedStep 300 2 2 (fun k => if k = 0 then 500000000 else 0) 0).sleepRequests
      = [1000000000, 1000000000] ∧
    stepInterval 2 2 - 500000000 ≠ (1000000000 : ℚ) ∧
    (timedStep 300 2 2 (fun k => if k = 0 then 500000000 else 0) 0).time
      = 2500000000 ∧
    ¬ ((2500000000 : ℚ) ≤ (105 / 100) * (2 * NS_PER_S)) := by
  refine ⟨?_, ?_, ?_, ?_⟩
  · norm_num [timedStep, pacingLoop, stepInterval, NS_PER_S, stepMod, Int.sign]
  · norm_num [stepInterval, NS_PER_S]
  · norm_num [timedStep, pacingLoop, stepInterval, NS_PER_S, stepMod, Int.sign]
  · norm_num [NS_PER_S]

/-- Claim C9 (amended): during `step(s, d)` the driver computes the
nominal interval `dt = d·10⁹/|s|` once and, after every transition,
suspends for the full nominal `dt` — it performs no per-step
elapsed-time measurement and no remaining-time correction — so the
command completes at `|s|·dt` plus the sum of all scheduler-induced
delays: lateness accumulates instead of being corrected. -/
theorem c9_full_nominal_pacing (T : Int) (steps : Int) (duration : ℚ)
    (late : Nat → ℚ) (pos : Int) :
    (timedStep T steps duration late pos).sleepRequests
      = List.replicate steps.natAbs (stepInterval duration steps.natAbs) ∧
    (timedStep T steps duration late pos).time
      = steps.natAbs * stepInterval duration steps.natAbs
        + Finset.sum (Finset.range steps.natAbs) late := by
  obtain ⟨hreq, htime⟩ :=
    pacingLoop_spec T (Int.sign steps) (stepInterval duration steps.natAbs) late
      steps.natAbs 0 pos 0
  refine ⟨hreq, ?_⟩
  rw [timedStep, htime, lateSum_eq_range]
  simp

/-- Claim C10: the `SplitFlap` constructor accepts duplicate labels (only
`period <= 0` is rejected), and the `flapIndices` table built by
`flaps.forEach((flap, i) => { flapIndices[flap] = i; })`
(src/lib/SplitFlap.js lines 30-34) maps a duplicated label to the
index of its last occurrence, since later assignments overwrite
earlier ones. -/
theorem c10_last_occurrence_wins (stT stP tF period : ℚ) (xs post : List String)
    (f : String) (hp : 0 < period) (hf : f ∉ post) :
    (mkSplitFlap stT stP (xs ++ f :: post) tF period).isSome = true ∧
    lookupFlap (xs ++ f :: post) f = some xs.length := by
  constructor
  · simp [mkSplitFlap, not_le.mpr hp]
  · rw [lookupFlap, lookupFlapAux_last f post hf xs 0]
    simp

/-- Witness for C10 at `flaps = ["A", "B", "A"]`: construction succeeds
and the duplicated label "A" maps to index 2, its last occurrence. -/
theorem c10_witness :
    (mkSplitFlap 300 0 ["A", "B", "A"] 3 6).isSome = true ∧
    lookupFlap ["A", "B", "A"] "A" = some 2 :=
  c10_last_occurrence_wins 300 0 3 6 ["A", "B"] [] "A" (by norm_num) (by decide)

/-- Claim C3: a later `step` command should perform no pin write until
the earlier command has fully completed.  The code violates this for
back-to-back submissions: `queueCommand` assigns
`this.latestCommand = command` only *after* `await this.latestCommand`
(src/lib/Stepper.js lines 243-244), so two `step(2, 2)` calls made in
the same synchronous block both await the already-resolved initial
promise and then run concurrently, interleaving their `stepMotor`
writes as command 1, command 2, command 1, command 2 — the second
command's first pin write happens before the first command's last.
Both commands nevertheless fulfil. -/
theorem c3_back_to_back_interleave :
    c3run.trace = [(1, 1), (2, 2), (1, 3), (2, 4)] ∧
    taskOutcome c3run 1 = some true ∧
    taskOutcome c3run 2 = some true ∧
    c3run.trace ≠
      c3run.trace.filter (fun e => e.1 == 1) ++ c3run.trace.filter (fun e => e.1 == 2) := by
  have htr : c3run.trace = [(1, 1), (2, 2), (1, 3), (2, 4)] := by
    norm_num [c3run, machineRun, machineStep, mkMachine, submitCmd, resumeTask,
      loopCheck, settleTask, fireTimer, earliestTimer, eraseTimer, findProm,
      findTask, setTaskPhase, waiterResumptions, stepInterval, NS_PER_S,
      stepMod, Int.sign, List.foldl]
  have h1 : taskOutcome c3run 1 = some true := by
    norm_num [c3run, machineRun, machineStep, mkMachine, submitCmd, resumeTask,
      loopCheck, settleTask, fireTimer, earliestTimer, eraseTimer, findProm,
      findTask, setTaskPhase, waiterResumptions, taskOutcome, stepInterval,
      NS_PER_S, stepMod, Int.sign, List.foldl]
  have h2 : taskOutcome c3run 2 = some true := by
    norm_num [c3run, machineRun, machineStep, mkMachine, submitCmd, resumeTask,
      loopCheck, settleTask, fireTimer, earliestTimer, eraseTimer, findProm,
      findTask, setTaskPhase, waiterResumptions, taskOutcome, stepInterval,
      NS_PER_S, stepMod, Int.sign, List.foldl]
  refine ⟨htr, h1, h2, ?_⟩
  rw [htr]
  decide

/-- Claim C6 counterexample: the claim says a pin-write failure stays
local to its command and subsequently submitted commands execute
normally.  In the code a rejected command's promise stays in
`latestCommand`, and the next command's `await this.latestCommand`
rethrows (src/lib/Stepper.js line 243), so on a `Stepper(8, pins)`
where `step(2, 2)`'s first write fails, a `step(1, 1)` submitted
5 seconds later rejects as well and performs no pin write at all. -/
theorem c6_counterexample :
    taskOutcome (c6run 8 1 1) 2 = some false ∧
    (c6run 8 1 1).trace = [] ∧
    taskOutcome (c6run 8 1 1) 1 = some false := by
  refine ⟨?_, ?_, ?_⟩ <;>
    norm_num [c6run, machineRun, machineStep, mkMachine, submitCmd, resumeTask,
      loopCheck, settleTask, fireTimer, earliestTimer, eraseTimer, findProm,
      findTask, setTaskPhase, waiterResumptions, taskOutcome, stepInterval,
      NS_PER_S, stepMod, Int.sign, List.foldl]

/-- Claim C6 (amended): when a pin write fails during a step command,
that command's awaitable rejects with the driver's position already
updated to the attempted transition (`_currentStep` is assigned before
`stepMotor` runs, src/lib/Stepper.js lines 252-258, and is not rolled
back), and the failing `stepMotor` call contributes no completed pin
writes; however, the error does not stay local: a command submitted
afterwards awaits the rejected promise left in `latestCommand`, so it
rejects in turn without performing any pin write, for every motor size
`T` and every later command `step(s2, d2)`. -/
theorem c6_failure_poisons_queue (T s2 : Int) (d2 : ℚ) :
    (c6run T s2 d2).pos = stepMod 0 1 T ∧
    (c6run T s2 d2).trace = [] ∧
    taskOutcome (c6run T s2 d2) 1 = some false ∧
    taskOutcome (c6run T s2 d2) 2 = some false := by
  refine ⟨?_, ?_, ?_, ?_⟩ <;>
    norm_num [c6run, machineRun, machineStep, mkMachine, submitCmd, resumeTask,
      loopCheck, settleTask, fireTimer, earliestTimer, eraseTimer, findProm,
      findTask, setTaskPhase, waiterResumptions, taskOutcome, stepInterval,
      NS_PER_S, stepMod, Int.sign, List.foldl]

/-- Claim C2: for a label in the table, `setFlap(label, true)` succeeds
without issuing any motor command (hence no pin write and no physical
motion), immediately sets `_flapIndex` to the label's index so that
`currentFlap` equals the label right away, calibrates the stepper's
position bookkeeping to the label's target step, and a subsequent
non-calibrate `setFlap` computes its forward delta from the stepper's
actual current step (the calibrated value), not from the mapper's
cached index.  (`Stepper.calibrate` is modelled from the spec — see
`calibrate`.) -/
theorem c2_calibrate_declares_position (sf : SplitFlap) (flap : String) (idx : Nat)
    (h : lookupFlap sf.flaps flap = some idx) :
    (setFlap sf flap true).err = none ∧
    (setFlap sf flap true).cmds = [] ∧
    (setFlap sf flap true).state.flapIndex = idx ∧
    currentFlap (setFlap sf flap true).state = some flap ∧
    (setFlap sf flap true).state.stepperPos
      = (idx : ℚ) / sf.totalFlaps * sf.stepperTotalSteps ∧
    (∀ flap2 idx2, lookupFlap sf.flaps flap2 = some idx2 →
      (setFlap (setFlap sf flap true).state flap2 false).cmds.map Prod.fst
        = [forwardSteps sf.stepperTotalSteps (setFlap sf flap true).state.stepperPos
            ((idx2 : ℚ) / sf.totalFlaps * sf.stepperTotalSteps)]) := by
  have hget : sf.flaps[idx]? = some flap := by
    have hg := lookupFlapAux_get flap sf.flaps 0 idx h
    simpa [List.get?_eq_getElem?] using hg.2
  refine ⟨?_, ?_, ?_, ?_, ?_, ?_⟩
  · simp [setFlap, h]
  · simp [setFlap, h]
  · simp [setFlap, h, calibrate]
  · simp [setFlap, h, calibrate, currentFlap, hget]
  · simp [setFlap, h, calibrate]
  · intro flap2 idx2 h2
    simp [setFlap, h, h2, calibrate]

/-- Witness for C2: mapper `labels = ["A", "B", "C"]`,
`totalFlaps = 3`, `period = 6`, motor `totalSteps = 300` at step 50 and
showing "C": `setFlap("A", true)` issues no motor command, makes
`currentFlap` "A" at once and calibrates the stepper to step 0, and a
following `setFlap("B")` computes its delta from the calibrated step. -/
theorem c2_witness :
    lookupFlap ["A", "B", "C"] "A" = some 0 ∧
    (setFlap ⟨["A", "B", "C"], 3, 6, 300, 50, 2⟩ "A" true).err = none ∧
    (setFlap ⟨["A", "B", "C"], 3, 6, 300, 50, 2⟩ "A" true).cmds = [] ∧
    currentFlap (setFlap ⟨["A", "B", "C"], 3, 6, 300, 50, 2⟩ "A" true).state
      = some "A" ∧
    (setFlap ⟨["A", "B", "C"], 3, 6, 300, 50, 2⟩ "A" true).state.stepperPos = 0 ∧
    (setFlap (setFlap ⟨["A", "B", "C"], 3, 6, 300, 50, 2⟩ "A" true).state
      "B" false).cmds.map Prod.fst = [100] :=
  ⟨by decide,
   (c2_calibrate_declares_position ⟨["A", "B", "C"], 3, 6, 300, 50, 2⟩ "A" 0
      (by decide)).1,
   (c2_calibrate_declares_position ⟨["A", "B", "C"], 3, 6, 300, 50, 2⟩ "A" 0
      (by decide)).2.1,
   (c2_calibrate_declares_position ⟨["A", "B", "C"], 3, 6, 300, 50, 2⟩ "A" 0
      (by decide)).2.2.2.1,
   by
    have hp := (c2_calibrate_declares_position ⟨["A", "B", "C"], 3, 6, 300, 50, 2⟩
      "A" 0 (by decide)).2.2.2.2.1
    rw [hp]; norm_num,
   by
    have hc := (c2_calibrate_declares_position ⟨["A", "B", "C"], 3, 6, 300, 50, 2⟩
      "A" 0 (by decide)).2.2.2.2.2 "B" 1 (by decide)
    have hp := (c2_calibrate_declares_position ⟨["A", "B", "C"], 3, 6, 300, 50, 2⟩
      "A" 0 (by decide)).2.2.2.2.1
    rw [hc, hp]
    norm_num [forwardSteps]⟩

/-- Claim C5 counterexample: the claim says `setFlap` computes the target
step as `round(target_index / total_positions * motor.total_steps)`.
The source applies no rounding (src/lib/SplitFlap.js line 115): with
`labels = ["A", "B", "C"]`, `totalFlaps = 3`, motor `totalSteps = 100`
at step 0, `setFlap("B")` issues `steps = 100/3`, not
`round(1/3 · 100) = 33`. -/
theorem c5_counterexample :
    ((setFlap ⟨["A", "B", "C"], 3, 6, 100, 0, 0⟩ "B" false).cmds.map Prod.fst
      = [100 / 3]) ∧
    (100 / 3 : ℚ) ≠ ((round ((1 : ℚ) / 3 * 100) : ℤ) : ℚ) := by
  have hl : lookupFlap ["A", "B", "C"] "B" = some 1 := by decide
  constructor
  · simp only [setFlap, hl]
    norm_num [forwardSteps]
  · rw [round_eq]
    norm_num

/-- Claim C5 (amended): for a known label and `calibrate = false`,
`setFlap` computes the target step as the exact (unrounded) value
`target_index / total_positions * motor.total_steps`, takes the
motor's actual current step as the start, issues exactly one
`motor.step(steps, duration)` with the always-nonnegative forward-only
delta `steps = forwardSteps` and
`duration = steps / motor.total_steps * period`, updates
`current_index` on completion, and leaves the motor at the position
the issued command drives it to. -/
theorem c5_setflap_unrounded (sf : SplitFlap) (flap : String) (idx : Nat)
    (h : lookupFlap sf.flaps flap = some idx)
    (hT : 0 ≤ sf.stepperTotalSteps) (hpT : sf.stepperPos ≤ sf.stepperTotalSteps)
    (hF : 0 < sf.totalFlaps) :
    (setFlap sf flap false).err = none ∧
    (setFlap sf flap false).cmds
      = [(forwardSteps sf.stepperTotalSteps sf.stepperPos
            ((idx : ℚ) / sf.totalFlaps * sf.stepperTotalSteps),
          forwardSteps sf.stepperTotalSteps sf.stepperPos
              ((idx : ℚ) / sf.totalFlaps * sf.stepperTotalSteps)
            / sf.stepperTotalSteps * sf.period)] ∧
    0 ≤ forwardSteps sf.stepperTotalSteps sf.stepperPos
          ((idx : ℚ) / sf.totalFlaps * sf.stepperTotalSteps) ∧
    (setFlap sf flap false).state.flapIndex = idx ∧
    (setFlap sf flap false).state.stepperPos
      = runStepQ sf.stepperTotalSteps
          (forwardSteps sf.stepperTotalSteps sf.stepperPos
            ((idx : ℚ) / sf.totalFlaps * sf.stepperTotalSteps))
          sf.stepperPos := by
  have htarget : 0 ≤ (idx : ℚ) / sf.totalFlaps * sf.stepperTotalSteps :=
    mul_nonneg (div_nonneg (Nat.cast_nonneg idx) (le_of_lt hF)) hT
  have hnn : 0 ≤ forwardSteps sf.stepperTotalSteps sf.stepperPos
      ((idx : ℚ) / sf.totalFlaps * sf.stepperTotalSteps) := by
    rw [forwardSteps]
    split
    · linarith
    · linarith [not_lt.mp (by assumption :
        ¬ (idx : ℚ) / sf.totalFlaps * sf.stepperTotalSteps < sf.stepperPos)]
  refine ⟨?_, ?_, hnn, ?_, ?_⟩ <;> simp [setFlap, h]

/-- Witness for C5, the spec's scenario: `labels = ["A", "B", "C"]`,
`totalFlaps = 3`, `period = 6`, motor `totalSteps = 300` at step 0:
`setFlap("C")` issues exactly `steps = 200` with `duration = 4` s and
ends with the motor at step 200 showing "C". -/
theorem c5_witness :
    lookupFlap ["A", "B", "C"] "C" = some 2 ∧
    (setFlap ⟨["A", "B", "C"], 3, 6, 300, 0, 0⟩ "C" false).err = none ∧
    (setFlap ⟨["A", "B", "C"], 3, 6, 300, 0, 0⟩ "C" false).cmds = [(200, 4)] ∧
    (setFlap ⟨["A", "B", "C"], 3, 6, 300, 0, 0⟩ "C" false).state.stepperPos = 200 ∧
    currentFlap (setFlap ⟨["A", "B", "C"], 3, 6, 300, 0, 0⟩ "C" false).state
      = some "C" :=
  ⟨by decide,
   (c5_setflap_unrounded ⟨["A", "B", "C"], 3, 6, 300, 0, 0⟩ "C" 2 (by decide)
      (by norm_num) (by norm_num) (by norm_num)).1,
   by
    have hl : Track.lookupFlap ["A", "B", "C"] "C" = some 2 := by decide
    simp only [setFlap, hl]
    norm_num [forwardSteps],
   by
    have hl : Track.lookupFlap ["A", "B", "C"] "C" = some 2 := by decide
    simp only [setFlap, hl]
    norm_num [forwardSteps]
    have hr := runStepQ_nat 300 200 0 (by norm_num) (by norm_num)
    norm_num at hr
    exact hr,
   by
    have hl : Track.lookupFlap ["A", "B", "C"] "C" = some 2 := by decide
    simp [setFlap, hl, currentFlap]⟩

/-- Claim C8: `setFlap` throws `UnknownLabelError` exactly for labels
absent from the table (index 0 is not treated as missing — the check
is `flap in flapIndices`, src/lib/SplitFlap.js line 111), and the
throw happens before any state change, leaving `_flapIndex` and the
motor untouched with no command issued. -/
theorem c8_unknown_label (sf : SplitFlap) (flap : String) (noStep : Bool) :
    ((setFlap sf flap noStep).err = none ↔ (lookupFlap sf.flaps flap).isSome = true) ∧
    (lookupFlap sf.flaps flap = none →
      setFlap sf flap noStep = ⟨sf, [], some (.unknownFlap flap)⟩) := by
  cases hl : lookupFlap sf.flaps flap with
  | none =>
    constructor
    · simp [setFlap, hl]
    · intro
      simp [setFlap, hl]
  | some idx =>
    constructor
    · cases noStep <;> simp [setFlap, hl]
    · intro hc
      simp at hc

/-- Witness for C8: on a mapper with `labels = ["A", "B"]`, the unknown
label "Z" is rejected with the state untouched and no motor command,
while the zeroth label "A" (table index 0) is accepted. -/
theorem c8_witness :
    (setFlap ⟨["A", "B"], 2, 5, 300, 0, 0⟩ "Z" false
      = ⟨⟨["A", "B"], 2, 5, 300, 0, 0⟩, [], some (.unknownFlap "Z")⟩) ∧
    (setFlap ⟨["A", "B"], 2, 5, 300, 0, 0⟩ "A" false).err = none :=
  ⟨(c8_unknown_label ⟨["A", "B"], 2, 5, 300, 0, 0⟩ "Z" false).2 (by decide),
   (c8_unknown_label ⟨["A", "B"], 2, 5, 300, 0, 0⟩ "A" false).1.mpr (by decide)⟩

end Track
